import Mathlib

/-!
Shallow embedding of the `client:ios` orchestration from
`src/packages/expo-cli/src/commands/client/index.js` and of the bundler
configuration builder from `src/unnamed/part_000`.

External collaborators (authentication, identity provider, credential
selection results, device listing, operator prompt answers, build service
URLs) are supplied through an environment record `Env`; the run function
`runClientIos` replays the orchestrator deterministically over that
environment and records every externally visible call in an event trace.
Modules of this repository that are absent from `src/` (tagger.js,
clientBuildApi.js, generateBundleIdentifier.js, the prompt wrapper, the
webpack helpers) are modelled from the specification and carry a doc
comment saying so.
-/

/-- Dirty/clean tag on a credential: dirty means newly generated or changed
this run (needs persistence), clean means reused unchanged. -/
inductive Tag
  | clean
  | dirty
deriving DecidableEq

/-- A credential (distribution certificate or push key): a record of string
fields plus its dirty/clean tag.  Follows the design note of the spec that a
credential is an immutable tagged record. -/
structure Credential where
  fields : List (String × String)
  tag : Tag
deriving DecidableEq

/-- Authenticated identity returned by the identity provider
(`User.getCurrentUserAsync`). -/
structure UserInfo where
  username : String
  email : String
deriving DecidableEq

/-- A registered device as returned by the device listing call. -/
structure Device where
  name : String
  deviceNumber : String
deriving DecidableEq

/-- The identity keys passed as the last argument of
`Credentials.updateCredentialsForPlatform` in the source. -/
structure StoreKeys where
  username : String
  experienceName : String
  bundleIdentifier : String
deriving DecidableEq

/-- The run context assembled in the source after the eligibility check:
authentication output plus the generated bundle identifier and experience
name. -/
structure Context where
  teamId : String
  appleId : String
  appleIdPassword : String
  bundleIdentifier : String
  experienceName : String
  username : Option String
deriving DecidableEq

/-- A JSON-like value standing for the optional custom app configuration
(`exp` read from app.json).  Only strings and objects are needed by the
claims. -/
inductive JsVal
  | str (s : String)
  | obj (fields : List (String × JsVal))

/-- Lookup of a key in the field list of a JS object. -/
def lookupJs : List (String × JsVal) → String → Option JsVal
  | [], _ => none
  | (k, v) :: rest, key => if k == key then some v else lookupJs rest key

/-- lodash `hasPath` over the JS value model: every key on the path must be
an own property of the object reached so far. -/
def JsVal.hasPath : JsVal → List String → Bool
  | _, [] => true
  | v, k :: ks =>
    match v with
    | .str _ => false
    | .obj fs =>
      match lookupJs fs k with
      | some w => w.hasPath ks
      | none => false

/-- lodash `_.has` applied to a possibly-undefined object: `_.has(undefined, p)`
is false. -/
def jsHasOpt : Option JsVal → List String → Bool
  | none, _ => false
  | some v, p => v.hasPath p

/-- The path lodash actually derives from the call
`_.has(exp, _ => _.ios.config.googleMapsApiKey)` in the source: the path
argument is a function, not a string or array, so lodash `castPath`
stringifies it (giving the arrow-function source text) and splits that text
with `stringToPath`, which collects the maximal runs of characters other
than dot and brackets.  For the text `_ => _.ios.config.googleMapsApiKey`
those runs are `_ => _`, `ios`, `config`, `googleMapsApiKey`. -/
def googleMapsCheckPath : List String :=
  ["_ => _", "ios", "config", "googleMapsApiKey"]

/-- The path the surrounding code and its user-facing messages intend to
check. -/
def googleMapsIntendedPath : List String :=
  ["ios", "config", "googleMapsApiKey"]

/-- The initial reason installed for the pushNotifications key when
`servicesDisabled` is created (source lines 35-38). -/
def pushDefaultReason : String :=
  "not yet available until API tokens are supported for the Push Notification system"

/-- JS `a || b` on a string read from an object: the left operand wins
exactly when it is present and non-empty (a non-empty string is truthy). -/
def jsOr : Option String → String → String
  | some s, b => if s == "" then b else s
  | none, b => b

/-- Assignment `m[k] = v` on a JS object modelled as an association list in
insertion order: an existing key keeps its position and gets the new value,
a new key is appended. -/
def setKey (m : List (String × String)) (k v : String) : List (String × String) :=
  if (List.lookup k m).isSome then
    m.map (fun p => if p.1 == k then (k, v) else p)
  else
    m ++ [(k, v)]

/-- Outcome of a run: completed, suspended forever on an interactive prompt
the operator never answers validly, or aborted with a `CommandError`
carrying a kind tag and a message. -/
inductive Outcome
  | ok
  | waiting
  | err (kind : String) (message : String)
deriving DecidableEq

/-- The request object passed to `createClientBuildRequest` in the source. -/
structure BuildRequest where
  user : Option UserInfo
  context : Context
  distributionCert : Option Credential
  pushKey : Option Credential
  udids : List String
  addUdid : Bool
  email : String
  customAppConfig : Option JsVal

/-- The build service response as the source consumes it: an object on which
either `registrationUrl` or `statusUrl` is populated. -/
structure BuildResultJs where
  registrationUrl : Option String
  statusUrl : Option String
deriving DecidableEq

/-- Externally visible calls of one orchestration run, in order. -/
inductive Event
  | authenticate
  | getCurrentUser
  | eligibilityQuery
  | ensureAppExists
  | selectDistCert
  | selectPushKey
  | renderDisabledServices (entries : List (String × String))
  | storeUpdate (platform : String) (payload : List (String × String)) (keys : StoreKeys)
  | promptEmail (input : String) (accepted : Bool)
  | listDevices
  | promptAddUdid (dflt : Bool)
  | submit (req : BuildRequest)
  | renderRegistrationUrl (url : String)
  | renderStatusUrl (url : String)

/-- Environment of one run: results of every external collaborator and every
operator interaction, fixed up front. -/
structure Env where
  appJsonPath : String
  exp : Option JsVal
  teamId : String
  appleId : String
  appleIdPassword : String
  user : Option UserInfo
  isAllowed : Bool
  errorMessage : String
  distributionCert : Option Credential
  pushKey : Option Credential
  emailInputs : List String
  devices : List Device
  addUdidAnswer : Bool
  registrationUrl : String
  statusUrl : String

/-- Result of replaying one run: its outcome, the ordered trace of external
calls, the final `servicesDisabled` report, the credentials collected by the
selection phase, the credentials as they stand after the update/clear phase,
and the consumed build result, when one was produced. -/
structure RunResult where
  outcome : Outcome
  trace : List Event
  servicesDisabled : List (String × String)
  collected : List Credential
  finalCredentials : List Credential
  buildResult : Option BuildResultJs

/-- Reason recorded for googleMaps, depending on whether a custom
configuration was found (source lines 53-56). -/
def googleMapsDisabledReason (env : Env) : String :=
  match env.exp with
  | some _ =>
    "ios.config.googleMapsApiKey does not exist in configuration file found in "
      ++ env.appJsonPath
  | none =>
    "No custom configuration file could be found. You will need to provide a json file with a valid ios.config.googleMapsApiKey field."

/-- `servicesDisabled` after initialization and the googleMaps check
(source lines 35-57).  The check uses the path lodash actually derives from
the function argument, `googleMapsCheckPath`. -/
def sdInit (env : Env) : List (String × String) :=
  let sd0 := [("pushNotifications", pushDefaultReason)]
  if jsHasOpt env.exp googleMapsCheckPath then sd0
  else setKey sd0 "googleMaps" (googleMapsDisabledReason env)

/-- `servicesDisabled` after the push-credentials / anonymous-actor check
(source lines 90-98): the new reason is installed with JS `||`, so the
pre-existing default reason wins. -/
def sdAfterPush (env : Env) : List (String × String) :=
  let sd1 := sdInit env
  if env.pushKey.isNone || env.user.isNone then
    let disabledReason :=
      if env.pushKey.isNone then "you did not upload your push credentials"
      else "we require you to be logged in to store push credentials"
    setKey sd1 "pushNotifications"
      (jsOr (List.lookup "pushNotifications" sd1) disabledReason)
  else sd1

/-- Rendering of the disabled-services warning block (source lines 100-112):
emitted only when the report is non-empty. -/
def sdRenderEvents (sd : List (String × String)) : List Event :=
  if sd.length > 0 then [Event.renderDisabledServices sd] else []

/-- JS test of the regular expression `.+@.+` on a string: there must be a
`@` with a character other than a line terminator directly before it and
directly after it (the regex dot does not match line terminators). -/
def emailRegexTest (s : String) : Bool :=
  let cs := s.toList
  (List.range cs.length).any fun i =>
    (cs.getD i ' ' == '@') && decide (1 ≤ i) && decide (i + 1 < cs.length)
      && (cs.getD (i - 1) '\n' != '\n') && (cs.getD (i + 1) '\n' != '\n')

/-- Modelled from the spec: the prompt wrapper (`../../prompt`) is not under
`src/`; the spec describes it as prompt-with-validation returning a single
scalar, re-prompting on invalid input.  Each attempted operator input
becomes one event; an input is accepted exactly when the validate function
of the source (the test of `.+@.+`) accepts it, and the accepted answer
passes through the filter function of the source (`value.trim()`).  An
exhausted input list models an operator who never supplies a valid answer:
the prompt never returns. -/
def promptEmailLoop : List String → List Event × Option String
  | [] => ([], none)
  | s :: rest =>
    if emailRegexTest s then
      ([Event.promptEmail s true], some s.trim)
    else
      (Event.promptEmail s false :: (promptEmailLoop rest).1, (promptEmailLoop rest).2)

/-- Email resolution (source lines 141-151): the identity email when an
identity is present, else the interactive prompt. -/
def emailPhase : Option UserInfo → List String → List Event × Option String
  | some u, _ => ([], some u.email)
  | none, inputs => promptEmailLoop inputs

/-- Device enrollment (source lines 153-184): list the registered devices;
with an empty list the device must be registered and no prompt is issued,
otherwise the operator answers a yes/no question whose default is true. -/
def devicePhase (devices : List Device) (answer : Bool) : List Event × Bool :=
  if devices.isEmpty then ([Event.listDevices], true)
  else ([Event.listDevices, Event.promptAddUdid true], answer)

/-- JS object spread `\x7b ...a, ...b \x7d` on records modelled as
association lists without duplicate keys: keys of `a` keep their positions,
values overridden by `b`; new keys of `b` are appended in order. -/
def jsMerge (a b : List (String × String)) : List (String × String) :=
  a.map (fun p =>
    match List.lookup p.1 b with
    | some v => (p.1, v)
    | none => p)
    ++ b.filter (fun q => (List.lookup q.1 a).isNone)

/-- The update function the source installs in the Updater (lines 117-134):
returns early on an empty list, otherwise reduces the credentials into one
payload seeded with the context team id and issues a single
`updateCredentialsForPlatform` call for the ios platform. -/
def updateCredentialsFn (teamId : String) (keys : StoreKeys)
    (listOfCredentials : List Credential) : List Event :=
  if listOfCredentials.isEmpty then []
  else
    let credentials :=
      listOfCredentials.foldl (fun acc c => jsMerge acc c.fields) [("teamId", teamId)]
    [Event.storeUpdate "ios" credentials keys]

/-- Modelled from the spec: tagger.js is not under `src/`.  Per the spec the
Tag-Tracking Updater filters the credentials tagged dirty out of the
collected list and hands exactly those to its stored update function, at
most once per run. -/
def updaterUpdateAllAsync (fn : List Credential → List Event)
    (creds : List Credential) : List Event :=
  fn (creds.filter fun c => c.tag == Tag.dirty)

/-- Modelled from the spec: tagger.js is not under `src/`.  Per the spec
`clearTags` drops the dirty/clean markers of the collected credentials with
no store interaction; cleared credentials need no persistence, so they are
tagged clean. -/
def clearTags (creds : List Credential) : List Credential :=
  creds.map fun c => { c with tag := Tag.clean }

/-- The collected credential list of the source (line 115):
`[distributionCert, pushKey].filter(i => i)` keeps the non-null ones in
order. -/
def collectedOf (dc pk : Option Credential) : List Credential :=
  [dc, pk].filterMap id

/-- Modelled from the spec: generateBundleIdentifier.js is not under `src/`;
per the spec the bundle identifier is deterministically derived from the
team id. -/
def generateBundleIdentifier (teamId : String) : String :=
  "client." ++ teamId

/-- Modelled from the spec: clientBuildApi.js is not under `src/`; per the
spec the experience name is deterministically derived from the identity and
the team. -/
def getExperienceName (user : Option UserInfo) (teamId : String) : String :=
  (match user with
   | some u => "@" ++ u.username
   | none => "@anonymous")
    ++ "/custom-expo-client-" ++ teamId

/-- The credential update / tag clearing phase (source lines 114-139):
returns the emitted events and the credentials as they stand afterwards. -/
def updatePhase (user : Option UserInfo) (teamId experienceName bundleIdentifier : String)
    (credentialsList : List Credential) : List Event × List Credential :=
  match user with
  | some u =>
    (updaterUpdateAllAsync
      (updateCredentialsFn teamId
        { username := u.username, experienceName := experienceName,
          bundleIdentifier := bundleIdentifier })
      credentialsList,
     credentialsList)
  | none => ([], clearTags credentialsList)

/-- Modelled from the spec: clientBuildApi.js is not under `src/`; per the
spec the build service mirrors the `shouldRegisterNewDevice` flag carried in
the request, populating exactly the matching variant of the result. -/
def createClientBuildRequestModel (req : BuildRequest)
    (regUrl statUrl : String) : BuildResultJs :=
  if req.addUdid then { registrationUrl := some regUrl, statusUrl := none }
  else { registrationUrl := none, statusUrl := some statUrl }

/-- Events preceding the eligibility decision (source lines 59-66). -/
def preEvents : List Event :=
  [Event.authenticate, Event.getCurrentUser, Event.eligibilityQuery]

/-- Events of the app registration and credential selection phase (source
lines 84-87). -/
def credEvents : List Event :=
  [Event.ensureAppExists, Event.selectDistCert, Event.selectPushKey]

/-- The bundle identifier generated for the run (source line 75). -/
def bundleIdOf (env : Env) : String :=
  generateBundleIdentifier env.teamId

/-- The experience name fetched for the run (source line 76). -/
def expNameOf (env : Env) : String :=
  getExperienceName env.user env.teamId

/-- The run context assembled at source lines 77-83. -/
def contextOf (env : Env) : Context :=
  { teamId := env.teamId, appleId := env.appleId,
    appleIdPassword := env.appleIdPassword,
    bundleIdentifier := bundleIdOf env, experienceName := expNameOf env,
    username := env.user.map (fun u => u.username) }

/-- The credentials collected by the selection phase (source line 115). -/
def credsOf (env : Env) : List Credential :=
  collectedOf env.distributionCert env.pushKey

/-- The update/clear phase of the run (source lines 114-139). -/
def updOf (env : Env) : List Event × List Credential :=
  updatePhase env.user env.teamId (expNameOf env) (bundleIdOf env) (credsOf env)

/-- Trace from authentication up to and including email resolution (source
lines 59-151). -/
def earlyTraceOf (env : Env) : List Event :=
  preEvents ++ credEvents ++ sdRenderEvents (sdAfterPush env) ++ (updOf env).1
    ++ (emailPhase env.user env.emailInputs).1

/-- The `shouldRegisterNewDevice` decision of the run (source lines
162-184). -/
def addUdidOf (env : Env) : Bool :=
  (devicePhase env.devices env.addUdidAnswer).2

/-- The build request submitted by the run (source lines 186-195). -/
def reqOf (env : Env) (email : String) : BuildRequest :=
  { user := env.user, context := contextOf env,
    distributionCert := env.distributionCert, pushKey := env.pushKey,
    udids := env.devices.map (fun d => d.deviceNumber),
    addUdid := addUdidOf env, email := email, customAppConfig := env.exp }

/-- The build result consumed by the run. -/
def resultOf (env : Env) (email : String) : BuildResultJs :=
  createClientBuildRequestModel (reqOf env email) env.registrationUrl env.statusUrl

/-- Rendering of the final actionable message (source lines 197-218): the
registration link when a device is to be registered, the status link
otherwise. -/
def renderEventsOf (env : Env) (email : String) : List Event :=
  if addUdidOf env then
    [Event.renderRegistrationUrl ((resultOf env email).registrationUrl.getD "undefined")]
  else
    [Event.renderStatusUrl ((resultOf env email).statusUrl.getD "undefined")]

/-- The run past the eligibility gate (source lines 75-218). -/
def runAllowed (env : Env) : RunResult :=
  match (emailPhase env.user env.emailInputs).2 with
  | none =>
    { outcome := Outcome.waiting, trace := earlyTraceOf env,
      servicesDisabled := sdAfterPush env, collected := credsOf env,
      finalCredentials := (updOf env).2, buildResult := none }
  | some email =>
    { outcome := Outcome.ok,
      trace := earlyTraceOf env ++ (devicePhase env.devices env.addUdidAnswer).1
        ++ [Event.submit (reqOf env email)] ++ renderEventsOf env email,
      servicesDisabled := sdAfterPush env, collected := credsOf env,
      finalCredentials := (updOf env).2, buildResult := some (resultOf env email) }

/-- The whole `client:ios` run (source lines 34-218): configuration lookup
and the `servicesDisabled` initialization, authentication, identity lookup,
eligibility query, then either the abort with the
CLIENT_BUILD_REQUEST_NOT_ALLOWED command error or the rest of the
orchestration. -/
def runClientIos (env : Env) : RunResult :=
  if env.isAllowed then runAllowed env
  else
    { outcome := Outcome.err "CLIENT_BUILD_REQUEST_NOT_ALLOWED"
        ("New Expo Client build request disallowed. Reason: " ++ env.errorMessage),
      trace := preEvents, servicesDisabled := sdInit env,
      collected := [], finalCredentials := [], buildResult := none }

/-- A run reaches the device enrollment phase exactly when the eligibility
gate passes and the email prompt resolves. -/
def reachesEnrollment (env : Env) : Bool :=
  env.isAllowed && (emailPhase env.user env.emailInputs).2.isSome

/-- Event classifiers. -/
def Event.isStoreUpdate : Event → Bool
  | .storeUpdate .. => true
  | _ => false

def Event.isSubmit : Event → Bool
  | .submit _ => true
  | _ => false

def Event.isPromptAddUdid : Event → Bool
  | .promptAddUdid _ => true
  | _ => false

def Event.isPromptEmail : Event → Bool
  | .promptEmail .. => true
  | _ => false

def Event.isRenderDisabled : Event → Bool
  | .renderDisabledServices _ => true
  | _ => false

def Event.isListDevices : Event → Bool
  | .listDevices => true
  | _ => false

def Event.isSelectDistCert : Event → Bool
  | .selectDistCert => true
  | _ => false

def Event.isSelectPushKey : Event → Bool
  | .selectPushKey => true
  | _ => false

def Event.isRenderRegistrationUrl : Event → Bool
  | .renderRegistrationUrl _ => true
  | _ => false

def Event.isRenderStatusUrl : Event → Bool
  | .renderStatusUrl _ => true
  | _ => false

/-- Classifier for the calls the eligibility denial must suppress:
credential selection, store update, device listing, build submission. -/
def Event.isSuppressedOnDenial (e : Event) : Bool :=
  e.isSelectDistCert || e.isSelectPushKey || e.isStoreUpdate || e.isListDevices || e.isSubmit

/-- Projection of a store-update event to its payload and keys. -/
def storeProj : Event → Option (List (String × String) × StoreKeys)
  | .storeUpdate _ payload keys => some (payload, keys)
  | _ => none

/-- Payload and keys of every store call in a trace, in order. -/
def storeCalls (t : List Event) : List (List (String × String) × StoreKeys) :=
  t.filterMap storeProj

/-- Projection of a submission event to its `shouldRegisterNewDevice`
flag. -/
def addUdidProj : Event → Option Bool
  | .submit req => some req.addUdid
  | _ => none

/-- The `shouldRegisterNewDevice` flag of every submitted request, in
order. -/
def submittedAddUdids (t : List Event) : List Bool :=
  t.filterMap addUdidProj

/-- Projection of a submission event to its notification email. -/
def emailProj : Event → Option String
  | .submit req => some req.email
  | _ => none

/-- The notification email of every submitted request, in order. -/
def submittedEmails (t : List Event) : List String :=
  t.filterMap emailProj

/-- Projection of a device registration prompt to its default answer. -/
def promptDefaultProj : Event → Option Bool
  | .promptAddUdid d => some d
  | _ => none

/-- The default carried by every yes/no device registration prompt, in
order. -/
def promptAddUdidDefaults (t : List Event) : List Bool :=
  t.filterMap promptDefaultProj

/-- Projection of a registration-link rendering to its url. -/
def regUrlProj : Event → Option String
  | .renderRegistrationUrl u => some u
  | _ => none

/-- The registration urls rendered in a trace, in order. -/
def renderedRegistrationUrls (t : List Event) : List String :=
  t.filterMap regUrlProj

/-- Projection of a status-link rendering to its url. -/
def statusUrlProj : Event → Option String
  | .renderStatusUrl u => some u
  | _ => none

/-- The status urls rendered in a trace, in order. -/
def renderedStatusUrls (t : List Event) : List String :=
  t.filterMap statusUrlProj

/-- Projection of a disabled-services rendering to its entries. -/
def reportProj : Event → Option (List (String × String))
  | .renderDisabledServices entries => some entries
  | _ => none

/-- The disabled-services reports rendered in a trace, in order. -/
def renderedReports (t : List Event) : List (List (String × String)) :=
  t.filterMap reportProj

/-- The prefix of a trace up to, and excluding, the first build
submission. -/
def eventsBeforeFirstSubmit (t : List Event) : List Event :=
  t.takeWhile (fun e => !e.isSubmit)

/-- A freshly generated push key, tagged dirty. -/
def dirtyPushKey : Credential :=
  { fields := [("applePushP8", "P8DATA"), ("applePushId", "PUSHID")], tag := Tag.dirty }

/-- A reused distribution certificate, tagged clean. -/
def cleanDistCert : Credential :=
  { fields := [("certP12", "CERTDATA")], tag := Tag.clean }

/-- A freshly generated distribution certificate, tagged dirty. -/
def dirtyDistCert : Credential :=
  { fields := [("certP12", "CERTDATA2")], tag := Tag.dirty }

/-- A registered device. -/
def deviceA : Device :=
  { name := "My iPhone", deviceNumber := "UDID-0001" }

/-- A baseline environment for concrete runs: authenticated operator, no
custom configuration, no credentials selected, empty device list. -/
def baseEnv : Env :=
  { appJsonPath := "/proj/app.json", exp := none, teamId := "TEAM1",
    appleId := "dev@example.com", appleIdPassword := "pw",
    user := some { username := "alice", email := "alice@example.com" },
    isAllowed := true, errorMessage := "",
    distributionCert := none, pushKey := none,
    emailInputs := [], devices := [], addUdidAnswer := true,
    registrationUrl := "https://expo.test/register",
    statusUrl := "https://expo.test/status" }

/-- Denied run. -/
def envC1 : Env :=
  { baseEnv with isAllowed := false, errorMessage := "quota exceeded" }

/-- Anonymous run holding a dirty push key. -/
def envC2 : Env :=
  { baseEnv with
    user := none
    pushKey := some dirtyPushKey
    emailInputs := ["carol@example.com"] }

/-- Authenticated run holding a clean certificate and a dirty push key. -/
def envC3 : Env :=
  { baseEnv with
    distributionCert := some cleanDistCert
    pushKey := some dirtyPushKey }

/-- Authenticated run with no dirty credential. -/
def envC3clean : Env :=
  { baseEnv with distributionCert := some cleanDistCert }

/-- Run with one registered device whose operator declines to register a new
one. -/
def envC4 : Env :=
  { baseEnv with devices := [deviceA], addUdidAnswer := false }

/-- Completed run with an empty device list. -/
def envC5 : Env := baseEnv

/-- Completed run used to inspect the position of the disabled-services
rendering. -/
def envC6 : Env := baseEnv

/-- A custom configuration that does contain the googleMapsApiKey field. -/
def expWithMapsKey : JsVal :=
  JsVal.obj
    [("ios", JsVal.obj
      [("config", JsVal.obj
        [("googleMapsApiKey", JsVal.str "AIzaSyExample")])])]

/-- Run with a custom configuration carrying the googleMapsApiKey field. -/
def envC7 : Env :=
  { baseEnv with exp := some expWithMapsKey }

/-- Anonymous run whose operator first types a malformed email, then a valid
one. -/
def envC8 : Env :=
  { baseEnv with
    user := none
    emailInputs := ["not-an-email", "carol@example.com"] }

/-- Denied run used to show the disabled-services block is not rendered on
every run. -/
def envC10 : Env :=
  { baseEnv with isAllowed := false, errorMessage := "builds in flight" }

/-- Structures for the bundler-configuration builder of `src/unnamed/part_000`.
The environment is split into the info flag (which gates the diagnostic
side channel) and an opaque remainder of type `Core`. -/
structure InputWebpackEnv (Core : Type) where
  info : Bool
  core : Core

/-- The validated environment of the builder. -/
structure WebpackEnv (Core : Type) where
  info : Bool
  core : Core

/-- Modelled from the spec: `utils/validate` is not under `src/`; the spec
treats validation as thin plumbing in front of the pure transform, so the
validated environment carries the same info flag and the same remaining
data. -/
def validateEnvironment {Core : Type} (e : InputWebpackEnv Core) : WebpackEnv Core :=
  { info := e.info, core := e.core }

/-- Modelled from the spec: `webpack.config` is not under `src/`; the spec
describes the builder as a pure transform of environment plus arguments into
a configuration, with the info flag gating only the optional diagnostic side
channel, so the transform reads the non-info part of the environment. -/
def webpackConfigFn {Core Args Cfg : Type} (transform : Core → Args → Cfg)
    (e : WebpackEnv Core) (argv : Args) : Cfg :=
  transform e.core argv

/-- Embedding of the default export of `src/unnamed/part_000`: validate the
environment, build the configuration, optionally emit the diagnostic report
(its value is not awaited and not used), and return the configuration. -/
def webpackBuilder {Core Args Cfg Diag : Type} (transform : Core → Args → Cfg)
    (report : Cfg → WebpackEnv Core → Diag)
    (env : InputWebpackEnv Core) (argv : Args) : Cfg × List Diag :=
  let environment := validateEnvironment env
  let config := webpackConfigFn transform environment argv
  if environment.info then (config, [report config environment])
  else (config, [])

/-! Helper lemmas about the phases of the run. -/

theorem clearTags_tag (creds : List Credential) :
    ∀ c ∈ clearTags creds, c.tag = Tag.clean := by
  intro c hc
  simp only [clearTags, List.mem_map] at hc
  obtain ⟨d, _, rfl⟩ := hc
  rfl

theorem promptEmailLoop_countP (p : Event → Bool)
    (h : ∀ s b, p (Event.promptEmail s b) = false)
    (inputs : List String) : ((promptEmailLoop inputs).1).countP p = 0 := by
  induction inputs with
  | nil => rfl
  | cons s rest ih =>
    by_cases he : emailRegexTest s
    · simp [promptEmailLoop, he, List.countP_cons, h]
    · simp [promptEmailLoop, he, List.countP_cons, h, ih]

theorem promptEmailLoop_filterMap {α : Type} (f : Event → Option α)
    (h : ∀ s b, f (Event.promptEmail s b) = none)
    (inputs : List String) : (promptEmailLoop inputs).1.filterMap f = [] := by
  induction inputs with
  | nil => rfl
  | cons s rest ih =>
    by_cases he : emailRegexTest s
    · simp [promptEmailLoop, he, List.filterMap_cons, h]
    · simp [promptEmailLoop, he, List.filterMap_cons, h, ih]

theorem sdRenderEvents_countP (p : Event → Bool)
    (h : ∀ entries, p (Event.renderDisabledServices entries) = false)
    (sd : List (String × String)) : (sdRenderEvents sd).countP p = 0 := by
  unfold sdRenderEvents
  split
  · simp [List.countP_cons, h]
  · rfl

theorem sdRenderEvents_filterMap {α : Type} (f : Event → Option α)
    (h : ∀ entries, f (Event.renderDisabledServices entries) = none)
    (sd : List (String × String)) : (sdRenderEvents sd).filterMap f = [] := by
  unfold sdRenderEvents
  split
  · simp [List.filterMap_cons, h]
  · rfl

theorem devicePhase_countP (p : Event → Bool)
    (h1 : p Event.listDevices = false)
    (h2 : ∀ d, p (Event.promptAddUdid d) = false)
    (ds : List Device) (a : Bool) : ((devicePhase ds a).1).countP p = 0 := by
  unfold devicePhase
  split <;> simp [List.countP_cons, h1, h2]

theorem devicePhase_filterMap {α : Type} (f : Event → Option α)
    (h1 : f Event.listDevices = none)
    (h2 : ∀ d, f (Event.promptAddUdid d) = none)
    (ds : List Device) (a : Bool) : ((devicePhase ds a).1).filterMap f = [] := by
  unfold devicePhase
  split <;> simp [List.filterMap_cons, h1, h2]

theorem renderEventsOf_countP (p : Event → Bool)
    (h1 : ∀ u, p (Event.renderRegistrationUrl u) = false)
    (h2 : ∀ u, p (Event.renderStatusUrl u) = false)
    (env : Env) (email : String) : (renderEventsOf env email).countP p = 0 := by
  unfold renderEventsOf
  split <;> simp [List.countP_cons, h1, h2]

theorem renderEventsOf_filterMap {α : Type} (f : Event → Option α)
    (h1 : ∀ u, f (Event.renderRegistrationUrl u) = none)
    (h2 : ∀ u, f (Event.renderStatusUrl u) = none)
    (env : Env) (email : String) : (renderEventsOf env email).filterMap f = [] := by
  unfold renderEventsOf
  split <;> simp [List.filterMap_cons, h1, h2]

theorem updatePhase_countP (p : Event → Bool)
    (h : ∀ pl payload keys, p (Event.storeUpdate pl payload keys) = false)
    (user : Option UserInfo) (tid en bi : String) (creds : List Credential) :
    ((updatePhase user tid en bi creds).1).countP p = 0 := by
  cases user with
  | none => rfl
  | some u =>
    simp only [updatePhase, updaterUpdateAllAsync, updateCredentialsFn]
    split
    · rfl
    · simp [List.countP_cons, h]

theorem updatePhase_filterMap {α : Type} (f : Event → Option α)
    (h : ∀ pl payload keys, f (Event.storeUpdate pl payload keys) = none)
    (user : Option UserInfo) (tid en bi : String) (creds : List Credential) :
    ((updatePhase user tid en bi creds).1).filterMap f = [] := by
  cases user with
  | none => rfl
  | some u =>
    simp only [updatePhase, updaterUpdateAllAsync, updateCredentialsFn]
    split
    · rfl
    · simp [List.filterMap_cons, h]

theorem updOf_countP (p : Event → Bool)
    (h : ∀ pl payload keys, p (Event.storeUpdate pl payload keys) = false)
    (env : Env) : ((updOf env).1).countP p = 0 :=
  updatePhase_countP p h env.user env.teamId (expNameOf env) (bundleIdOf env) (credsOf env)

theorem updOf_filterMap {α : Type} (f : Event → Option α)
    (h : ∀ pl payload keys, f (Event.storeUpdate pl payload keys) = none)
    (env : Env) : ((updOf env).1).filterMap f = [] :=
  updatePhase_filterMap f h env.user env.teamId (expNameOf env) (bundleIdOf env) (credsOf env)

theorem updOf_fst_none (env : Env) (h : env.user = none) : (updOf env).1 = [] := by
  simp [updOf, updatePhase, h]

theorem updOf_snd_none (env : Env) (h : env.user = none) :
    (updOf env).2 = clearTags (credsOf env) := by
  simp [updOf, updatePhase, h]

theorem updOf_fst_some (env : Env) (u : UserInfo) (h : env.user = some u) :
    (updOf env).1 =
      updateCredentialsFn env.teamId
        { username := u.username, experienceName := expNameOf env,
          bundleIdentifier := bundleIdOf env }
        ((credsOf env).filter fun c => c.tag == Tag.dirty) := by
  simp [updOf, updatePhase, updaterUpdateAllAsync, h]

theorem updOf_snd_some (env : Env) (u : UserInfo) (h : env.user = some u) :
    (updOf env).2 = credsOf env := by
  simp [updOf, updatePhase, h]

theorem earlyTraceOf_countP_eq (env : Env) (p : Event → Bool)
    (hpre : preEvents.countP p = 0) (hcred : credEvents.countP p = 0)
    (hsd : ∀ entries, p (Event.renderDisabledServices entries) = false)
    (hmail : ∀ s b, p (Event.promptEmail s b) = false) :
    (earlyTraceOf env).countP p = ((updOf env).1).countP p := by
  unfold earlyTraceOf
  cases hu : env.user with
  | some u =>
    simp [List.countP_append, hpre, hcred, sdRenderEvents_countP p hsd, emailPhase, hu]
  | none =>
    simp [List.countP_append, hpre, hcred, sdRenderEvents_countP p hsd, emailPhase, hu,
      promptEmailLoop_countP p hmail]

theorem earlyTraceOf_filterMap_eq {α : Type} (env : Env) (f : Event → Option α)
    (hpre : preEvents.filterMap f = []) (hcred : credEvents.filterMap f = [])
    (hsd : ∀ entries, f (Event.renderDisabledServices entries) = none)
    (hmail : ∀ s b, f (Event.promptEmail s b) = none) :
    (earlyTraceOf env).filterMap f = ((updOf env).1).filterMap f := by
  unfold earlyTraceOf
  cases hu : env.user with
  | some u =>
    simp [List.filterMap_append, hpre, hcred, sdRenderEvents_filterMap f hsd, emailPhase, hu]
  | none =>
    simp [List.filterMap_append, hpre, hcred, sdRenderEvents_filterMap f hsd, emailPhase, hu,
      promptEmailLoop_filterMap f hmail]

theorem runClientIos_denied (env : Env) (h : env.isAllowed = false) :
    runClientIos env =
      { outcome := Outcome.err "CLIENT_BUILD_REQUEST_NOT_ALLOWED"
          ("New Expo Client build request disallowed. Reason: " ++ env.errorMessage),
        trace := preEvents, servicesDisabled := sdInit env,
        collected := [], finalCredentials := [], buildResult := none } := by
  simp [runClientIos, h]

theorem runClientIos_allowed (env : Env) (h : env.isAllowed = true) :
    runClientIos env = runAllowed env := by
  simp [runClientIos, h]

theorem runAllowed_waiting (env : Env)
    (h : (emailPhase env.user env.emailInputs).2 = none) :
    runAllowed env =
      { outcome := Outcome.waiting, trace := earlyTraceOf env,
        servicesDisabled := sdAfterPush env, collected := credsOf env,
        finalCredentials := (updOf env).2, buildResult := none } := by
  unfold runAllowed
  rw [h]

theorem runAllowed_completed (env : Env) (email : String)
    (h : (emailPhase env.user env.emailInputs).2 = some email) :
    runAllowed env =
      { outcome := Outcome.ok,
        trace := earlyTraceOf env ++ (devicePhase env.devices env.addUdidAnswer).1
          ++ [Event.submit (reqOf env email)] ++ renderEventsOf env email,
        servicesDisabled := sdAfterPush env, collected := credsOf env,
        finalCredentials := (updOf env).2,
        buildResult := some (resultOf env email) } := by
  unfold runAllowed
  rw [h]

theorem storeCalls_append (a b : List Event) :
    storeCalls (a ++ b) = storeCalls a ++ storeCalls b := by
  unfold storeCalls
  exact List.filterMap_append a b _

theorem run_collected (env : Env) (hA : env.isAllowed = true) :
    (runClientIos env).collected = credsOf env := by
  rw [runClientIos_allowed env hA]
  cases hE : (emailPhase env.user env.emailInputs).2 with
  | none => rw [runAllowed_waiting env hE]
  | some email => rw [runAllowed_completed env email hE]

theorem trace_countP_store (env : Env) (hA : env.isAllowed = true) :
    (runClientIos env).trace.countP Event.isStoreUpdate =
      ((updOf env).1).countP Event.isStoreUpdate := by
  rw [runClientIos_allowed env hA]
  cases hE : (emailPhase env.user env.emailInputs).2 with
  | none =>
    rw [runAllowed_waiting env hE]
    exact earlyTraceOf_countP_eq env _ (by decide) (by decide) (fun _ => rfl) (fun _ _ => rfl)
  | some email =>
    rw [runAllowed_completed env email hE]
    show (earlyTraceOf env ++ (devicePhase env.devices env.addUdidAnswer).1
      ++ [Event.submit (reqOf env email)] ++ renderEventsOf env email).countP
        Event.isStoreUpdate = _
    rw [List.countP_append, List.countP_append, List.countP_append]
    rw [earlyTraceOf_countP_eq env _ (by decide) (by decide) (fun _ => rfl) (fun _ _ => rfl)]
    rw [devicePhase_countP _ rfl (fun _ => rfl) env.devices env.addUdidAnswer]
    rw [renderEventsOf_countP _ (fun _ => rfl) (fun _ => rfl) env email]
    simp [Event.isStoreUpdate]

theorem trace_storeCalls (env : Env) (hA : env.isAllowed = true) :
    storeCalls (runClientIos env).trace = storeCalls ((updOf env).1) := by
  rw [runClientIos_allowed env hA]
  cases hE : (emailPhase env.user env.emailInputs).2 with
  | none =>
    rw [runAllowed_waiting env hE]
    exact earlyTraceOf_filterMap_eq env _ rfl rfl (fun _ => rfl) (fun _ _ => rfl)
  | some email =>
    rw [runAllowed_completed env email hE]
    show storeCalls (earlyTraceOf env ++ (devicePhase env.devices env.addUdidAnswer).1
      ++ [Event.submit (reqOf env email)] ++ renderEventsOf env email) = _
    rw [storeCalls_append, storeCalls_append, storeCalls_append]
    rw [show storeCalls (earlyTraceOf env) = storeCalls ((updOf env).1) from
      earlyTraceOf_filterMap_eq env _ rfl rfl (fun _ => rfl) (fun _ _ => rfl)]
    rw [show storeCalls ((devicePhase env.devices env.addUdidAnswer).1) = [] from
      devicePhase_filterMap _ rfl (fun _ => rfl) env.devices env.addUdidAnswer]
    rw [show storeCalls (renderEventsOf env email) = [] from
      renderEventsOf_filterMap _ (fun _ => rfl) (fun _ => rfl) env email]
    simp [storeCalls, storeProj]

/-- C1: when the eligibility query returns isAllowed=false, the orchestrator
aborts with the CLIENT_BUILD_REQUEST_NOT_ALLOWED command error whose message
carries the service-supplied reason, and the trace of that run holds no
credential selection, credential-store update, device listing, or build
submission call. -/
theorem denied_run_aborts_without_side_effects (env : Env) (h : env.isAllowed = false) :
    (runClientIos env).outcome = Outcome.err "CLIENT_BUILD_REQUEST_NOT_ALLOWED"
        ("New Expo Client build request disallowed. Reason: " ++ env.errorMessage)
    ∧ (runClientIos env).trace.countP Event.isSuppressedOnDenial = 0 := by
  rw [runClientIos_denied env h]
  exact ⟨rfl, rfl⟩

theorem denied_run_aborts_without_side_effects_witness :
    envC1.isAllowed = false ∧
    ((runClientIos envC1).outcome = Outcome.err "CLIENT_BUILD_REQUEST_NOT_ALLOWED"
        ("New Expo Client build request disallowed. Reason: " ++ envC1.errorMessage)
      ∧ (runClientIos envC1).trace.countP Event.isSuppressedOnDenial = 0) :=
  ⟨rfl, denied_run_aborts_without_side_effects envC1 rfl⟩

/-- C2: in every run with an anonymous actor the credential store is never
called, regardless of how many collected credentials are tagged dirty; the
collected non-null credentials instead have their tags cleared, with no
store interaction. -/
theorem anonymous_run_skips_store_and_clears_tags (env : Env) (h : env.user = none) :
    (runClientIos env).trace.countP Event.isStoreUpdate = 0
    ∧ (runClientIos env).finalCredentials = clearTags ((runClientIos env).collected)
    ∧ ∀ c ∈ (runClientIos env).finalCredentials, c.tag = Tag.clean := by
  cases hA : env.isAllowed with
  | false =>
    rw [runClientIos_denied env hA]
    refine ⟨rfl, rfl, ?_⟩
    intro c hc
    simp at hc
  | true =>
    have hcount : (runClientIos env).trace.countP Event.isStoreUpdate = 0 := by
      rw [trace_countP_store env hA, updOf_fst_none env h]
      rfl
    have hfin : (runClientIos env).finalCredentials = clearTags (credsOf env) := by
      rw [runClientIos_allowed env hA]
      cases hE : (emailPhase env.user env.emailInputs).2 with
      | none =>
        rw [runAllowed_waiting env hE]
        exact updOf_snd_none env h
      | some email =>
        rw [runAllowed_completed env email hE]
        exact updOf_snd_none env h
    refine ⟨hcount, ?_, ?_⟩
    · rw [hfin, run_collected env hA]
    · rw [hfin]
      exact clearTags_tag (credsOf env)

theorem anonymous_run_skips_store_and_clears_tags_witness :
    envC2.user = none ∧
    ((runClientIos envC2).trace.countP Event.isStoreUpdate = 0
      ∧ (runClientIos envC2).finalCredentials = clearTags ((runClientIos envC2).collected)
      ∧ ∀ c ∈ (runClientIos envC2).finalCredentials, c.tag = Tag.clean) :=
  ⟨rfl, anonymous_run_skips_store_and_clears_tags envC2 rfl⟩

/-- C3 counterexample: in the authenticated run `envC3` exactly one store
call is made, but its payload is not the merge of the fields of the dirty
credentials alone — the source seeds the reduce with the context team id
(line 128), so the payload carries a teamId field the dirty credentials do
not contain. -/
theorem store_payload_not_only_dirty_fields :
    storeCalls (runClientIos envC3).trace =
      [([("teamId", "TEAM1"), ("applePushP8", "P8DATA"), ("applePushId", "PUSHID")],
        { username := "alice", experienceName := "@alice/custom-expo-client-TEAM1",
          bundleIdentifier := "client.TEAM1" })]
    ∧ ((credsOf envC3).filter fun c => c.tag == Tag.dirty).foldl
        (fun acc c => jsMerge acc c.fields) []
        = [("applePushP8", "P8DATA"), ("applePushId", "PUSHID")]
    ∧ ([("teamId", "TEAM1"), ("applePushP8", "P8DATA"), ("applePushId", "PUSHID")]
        : List (String × String))
      ≠ [("applePushP8", "P8DATA"), ("applePushId", "PUSHID")] :=
  ⟨rfl, rfl, by decide⟩

/-- C3 amended: for every authenticated run the credential store is called
at most once; when no collected credential is dirty it is not called at all;
when some are, the single call's payload is the fields of exactly the dirty
credentials merged into a record seeded with the context team id, keyed by
username, experienceName and bundleIdentifier. -/
theorem authenticated_store_at_most_once_dirty_merge (env : Env) (u : UserInfo)
    (h : env.user = some u) :
    (runClientIos env).trace.countP Event.isStoreUpdate ≤ 1
    ∧ (((runClientIos env).collected.filter fun c => c.tag == Tag.dirty) = [] →
        storeCalls (runClientIos env).trace = [])
    ∧ (((runClientIos env).collected.filter fun c => c.tag == Tag.dirty) ≠ [] →
        storeCalls (runClientIos env).trace =
          [(((runClientIos env).collected.filter fun c => c.tag == Tag.dirty).foldl
              (fun acc c => jsMerge acc c.fields) [("teamId", env.teamId)],
            { username := u.username, experienceName := expNameOf env,
              bundleIdentifier := bundleIdOf env })]) := by
  cases hA : env.isAllowed with
  | false =>
    rw [runClientIos_denied env hA]
    exact ⟨(by decide : preEvents.countP Event.isStoreUpdate ≤ 1),
      fun _ => rfl, fun hne => absurd rfl hne⟩
  | true =>
    rw [run_collected env hA, trace_countP_store env hA, trace_storeCalls env hA]
    rw [updOf_fst_some env u h]
    cases hd : (credsOf env).filter fun c => c.tag == Tag.dirty with
    | nil =>
      exact ⟨by simp [updateCredentialsFn, storeCalls], fun _ => rfl, fun hne => absurd rfl hne⟩
    | cons c cs =>
      refine ⟨?_, ?_, ?_⟩
      · simp [updateCredentialsFn, storeCalls, Event.isStoreUpdate, List.countP_cons]
      · intro hcontr
        exact absurd hcontr (List.cons_ne_nil c cs)
      · intro _
        rfl

theorem authenticated_store_at_most_once_dirty_merge_witness :
    envC3.user = some { username := "alice", email := "alice@example.com" } ∧
    (runClientIos envC3).trace.countP Event.isStoreUpdate ≤ 1 ∧
    ((runClientIos envC3).collected.filter fun c => c.tag == Tag.dirty) ≠ [] ∧
    storeCalls (runClientIos envC3).trace =
      [([("teamId", "TEAM1"), ("applePushP8", "P8DATA"), ("applePushId", "PUSHID")],
        { username := "alice", experienceName := "@alice/custom-expo-client-TEAM1",
          bundleIdentifier := "client.TEAM1" })] :=
  ⟨rfl,
   (authenticated_store_at_most_once_dirty_merge envC3 _ rfl).1,
   by decide,
   (authenticated_store_at_most_once_dirty_merge envC3 _ rfl).2.2 (by decide)⟩

theorem completed_trace_filterMap {α : Type} (env : Env) (email : String)
    (hA : env.isAllowed = true)
    (hE : (emailPhase env.user env.emailInputs).2 = some email)
    (f : Event → Option α)
    (hpre : preEvents.filterMap f = []) (hcred : credEvents.filterMap f = [])
    (hsd : ∀ entries, f (Event.renderDisabledServices entries) = none)
    (hmail : ∀ s b, f (Event.promptEmail s b) = none)
    (hupd : ∀ pl payload keys, f (Event.storeUpdate pl payload keys) = none) :
    (runClientIos env).trace.filterMap f =
      ((devicePhase env.devices env.addUdidAnswer).1).filterMap f
        ++ [Event.submit (reqOf env email)].filterMap f
        ++ (renderEventsOf env email).filterMap f := by
  rw [runClientIos_allowed env hA, runAllowed_completed env email hE]
  show (earlyTraceOf env ++ (devicePhase env.devices env.addUdidAnswer).1
    ++ [Event.submit (reqOf env email)] ++ renderEventsOf env email).filterMap f = _
  rw [List.filterMap_append, List.filterMap_append, List.filterMap_append]
  rw [earlyTraceOf_filterMap_eq env f hpre hcred hsd hmail]
  rw [updOf_filterMap f hupd env]
  simp

theorem completed_submittedAddUdids (env : Env) (email : String)
    (hA : env.isAllowed = true)
    (hE : (emailPhase env.user env.emailInputs).2 = some email) :
    submittedAddUdids (runClientIos env).trace = [addUdidOf env] := by
  unfold submittedAddUdids
  rw [completed_trace_filterMap env email hA hE addUdidProj rfl rfl (fun _ => rfl)
    (fun _ _ => rfl) (fun _ _ _ => rfl)]
  rw [devicePhase_filterMap addUdidProj rfl (fun _ => rfl) env.devices env.addUdidAnswer]
  rw [renderEventsOf_filterMap addUdidProj (fun _ => rfl) (fun _ => rfl) env email]
  rfl

theorem completed_promptAddUdidDefaults (env : Env) (email : String)
    (hA : env.isAllowed = true)
    (hE : (emailPhase env.user env.emailInputs).2 = some email) :
    promptAddUdidDefaults (runClientIos env).trace =
      promptAddUdidDefaults ((devicePhase env.devices env.addUdidAnswer).1) := by
  unfold promptAddUdidDefaults
  rw [completed_trace_filterMap env email hA hE promptDefaultProj rfl rfl (fun _ => rfl)
    (fun _ _ => rfl) (fun _ _ _ => rfl)]
  rw [renderEventsOf_filterMap promptDefaultProj (fun _ => rfl) (fun _ => rfl) env email]
  simp [promptDefaultProj]

theorem reachesEnrollment_isAllowed (env : Env) (h : reachesEnrollment env = true) :
    env.isAllowed = true := by
  have h' := h
  simp only [reachesEnrollment, Bool.and_eq_true] at h'
  exact h'.1

theorem reachesEnrollment_email (env : Env) (h : reachesEnrollment env = true) :
    ∃ e, (emailPhase env.user env.emailInputs).2 = some e := by
  have h' := h
  simp only [reachesEnrollment, Bool.and_eq_true] at h'
  exact Option.isSome_iff_exists.mp h'.2

/-- C4: in every run that reaches device enrollment, an empty registered
device list forces shouldRegisterNewDevice to true with no operator prompt,
while a non-empty list issues one yes/no prompt whose default is true and
whose answer becomes the flag carried in the submitted request. -/
theorem device_enrollment_decision (env : Env) (h : reachesEnrollment env = true) :
    (env.devices = [] →
      promptAddUdidDefaults (runClientIos env).trace = []
      ∧ submittedAddUdids (runClientIos env).trace = [true])
    ∧ (env.devices ≠ [] →
      promptAddUdidDefaults (runClientIos env).trace = [true]
      ∧ submittedAddUdids (runClientIos env).trace = [env.addUdidAnswer]) := by
  have hA := reachesEnrollment_isAllowed env h
  obtain ⟨email, hE⟩ := reachesEnrollment_email env h
  have hdef := completed_promptAddUdidDefaults env email hA hE
  have hsub := completed_submittedAddUdids env email hA hE
  constructor
  · intro hd
    rw [hdef, hsub]
    unfold addUdidOf devicePhase
    rw [hd]
    exact ⟨rfl, rfl⟩
  · intro hd
    rw [hdef, hsub]
    unfold addUdidOf devicePhase
    cases hds : env.devices with
    | nil => exact absurd hds hd
    | cons d ds => exact ⟨rfl, rfl⟩

theorem device_enrollment_decision_witness :
    reachesEnrollment envC4 = true ∧
    envC4.devices ≠ [] ∧
    promptAddUdidDefaults (runClientIos envC4).trace = [true] ∧
    submittedAddUdids (runClientIos envC4).trace = [envC4.addUdidAnswer] :=
  ⟨rfl, by decide,
    ((device_enrollment_decision envC4 rfl).2 (by decide)).1,
    ((device_enrollment_decision envC4 rfl).2 (by decide)).2⟩

theorem completed_buildResult (env : Env) (email : String)
    (hA : env.isAllowed = true)
    (hE : (emailPhase env.user env.emailInputs).2 = some email) :
    (runClientIos env).buildResult = some (resultOf env email) := by
  rw [runClientIos_allowed env hA, runAllowed_completed env email hE]

theorem completed_renderedRegistrationUrls (env : Env) (email : String)
    (hA : env.isAllowed = true)
    (hE : (emailPhase env.user env.emailInputs).2 = some email) :
    renderedRegistrationUrls (runClientIos env).trace =
      renderedRegistrationUrls (renderEventsOf env email) := by
  unfold renderedRegistrationUrls
  rw [completed_trace_filterMap env email hA hE regUrlProj rfl rfl (fun _ => rfl)
    (fun _ _ => rfl) (fun _ _ _ => rfl)]
  rw [devicePhase_filterMap regUrlProj rfl (fun _ => rfl) env.devices env.addUdidAnswer]
  simp [regUrlProj]

theorem completed_renderedStatusUrls (env : Env) (email : String)
    (hA : env.isAllowed = true)
    (hE : (emailPhase env.user env.emailInputs).2 = some email) :
    renderedStatusUrls (runClientIos env).trace =
      renderedStatusUrls (renderEventsOf env email) := by
  unfold renderedStatusUrls
  rw [completed_trace_filterMap env email hA hE statusUrlProj rfl rfl (fun _ => rfl)
    (fun _ _ => rfl) (fun _ _ _ => rfl)]
  rw [devicePhase_filterMap statusUrlProj rfl (fun _ => rfl) env.devices env.addUdidAnswer]
  simp [statusUrlProj]

/-- C5: in every completed run exactly one BuildResult variant is populated
and consumed, and it matches the shouldRegisterNewDevice flag carried in the
submitted request: with the flag true the registration url variant is
populated and rendered, with the flag false the status url variant is. -/
theorem build_result_variant_matches_flag (env : Env) (h : reachesEnrollment env = true) :
    ((runClientIos env).buildResult.map fun r => r.registrationUrl.isSome)
        = some (addUdidOf env)
    ∧ ((runClientIos env).buildResult.map fun r => r.statusUrl.isSome)
        = some (!addUdidOf env)
    ∧ submittedAddUdids (runClientIos env).trace = [addUdidOf env]
    ∧ (addUdidOf env = true →
        renderedRegistrationUrls (runClientIos env).trace = [env.registrationUrl]
        ∧ renderedStatusUrls (runClientIos env).trace = [])
    ∧ (addUdidOf env = false →
        renderedRegistrationUrls (runClientIos env).trace = []
        ∧ renderedStatusUrls (runClientIos env).trace = [env.statusUrl]) := by
  have hA := reachesEnrollment_isAllowed env h
  obtain ⟨email, hE⟩ := reachesEnrollment_email env h
  have hres := completed_buildResult env email hA hE
  have hreg := completed_renderedRegistrationUrls env email hA hE
  have hstat := completed_renderedStatusUrls env email hA hE
  have hsub := completed_submittedAddUdids env email hA hE
  rw [hres, hreg, hstat, hsub]
  cases hu : addUdidOf env with
  | true =>
    refine ⟨?_, ?_, rfl, ?_, ?_⟩
    · simp [resultOf, createClientBuildRequestModel, reqOf, hu]
    · simp [resultOf, createClientBuildRequestModel, reqOf, hu]
    · intro _
      constructor
      · simp [renderEventsOf, hu, resultOf, createClientBuildRequestModel, reqOf,
          renderedRegistrationUrls, regUrlProj]
      · simp [renderEventsOf, hu, renderedStatusUrls, statusUrlProj]
    · intro hcontr
      exact absurd hcontr (by decide)
  | false =>
    refine ⟨?_, ?_, rfl, ?_, ?_⟩
    · simp [resultOf, createClientBuildRequestModel, reqOf, hu]
    · simp [resultOf, createClientBuildRequestModel, reqOf, hu]
    · intro hcontr
      exact absurd hcontr (by decide)
    · intro _
      constructor
      · simp [renderEventsOf, hu, renderedRegistrationUrls, regUrlProj]
      · simp [renderEventsOf, hu, resultOf, createClientBuildRequestModel, reqOf,
          renderedStatusUrls, statusUrlProj]

theorem build_result_variant_matches_flag_witness :
    reachesEnrollment envC5 = true ∧
    ((runClientIos envC5).buildResult.map fun r => r.registrationUrl.isSome)
        = some (addUdidOf envC5) ∧
    ((runClientIos envC5).buildResult.map fun r => r.statusUrl.isSome)
        = some (!addUdidOf envC5) ∧
    submittedAddUdids (runClientIos envC5).trace = [addUdidOf envC5] ∧
    renderedRegistrationUrls (runClientIos envC5).trace = [envC5.registrationUrl] ∧
    renderedStatusUrls (runClientIos envC5).trace = [] :=
  ⟨rfl,
   (build_result_variant_matches_flag envC5 rfl).1,
   (build_result_variant_matches_flag envC5 rfl).2.1,
   (build_result_variant_matches_flag envC5 rfl).2.2.1,
   ((build_result_variant_matches_flag envC5 rfl).2.2.2.1 rfl).1,
   ((build_result_variant_matches_flag envC5 rfl).2.2.2.1 rfl).2⟩

theorem sdAfterPush_lookup_push (env : Env) :
    List.lookup "pushNotifications" (sdAfterPush env) = some pushDefaultReason := by
  simp only [sdAfterPush, sdInit]
  split <;> split <;> rfl

theorem sdAfterPush_length_pos (env : Env) : 0 < (sdAfterPush env).length := by
  cases hs : sdAfterPush env with
  | nil =>
    have hl := sdAfterPush_lookup_push env
    rw [hs] at hl
    simp [List.lookup] at hl
  | cons a l => simp

theorem earlyTraceOf_render_count (env : Env) :
    (earlyTraceOf env).countP Event.isRenderDisabled = 1 := by
  unfold earlyTraceOf
  rw [List.countP_append, List.countP_append, List.countP_append, List.countP_append]
  have hp : preEvents.countP Event.isRenderDisabled = 0 := rfl
  have hc : credEvents.countP Event.isRenderDisabled = 0 := rfl
  have hsd : (sdRenderEvents (sdAfterPush env)).countP Event.isRenderDisabled = 1 := by
    unfold sdRenderEvents
    rw [if_pos (sdAfterPush_length_pos env)]
    rfl
  have hupd : ((updOf env).1).countP Event.isRenderDisabled = 0 :=
    updOf_countP _ (fun _ _ _ => rfl) env
  have hmail : ((emailPhase env.user env.emailInputs).1).countP Event.isRenderDisabled = 0 := by
    cases hu : env.user with
    | some u => rfl
    | none => exact promptEmailLoop_countP _ (fun _ _ => rfl) env.emailInputs
  rw [hp, hc, hsd, hupd, hmail]

theorem trace_countP_renderDisabled (env : Env) (hA : env.isAllowed = true) :
    (runClientIos env).trace.countP Event.isRenderDisabled = 1 := by
  rw [runClientIos_allowed env hA]
  cases hE : (emailPhase env.user env.emailInputs).2 with
  | none =>
    rw [runAllowed_waiting env hE]
    exact earlyTraceOf_render_count env
  | some email =>
    rw [runAllowed_completed env email hE]
    show (earlyTraceOf env ++ (devicePhase env.devices env.addUdidAnswer).1
      ++ [Event.submit (reqOf env email)] ++ renderEventsOf env email).countP
        Event.isRenderDisabled = 1
    rw [List.countP_append, List.countP_append, List.countP_append]
    rw [earlyTraceOf_render_count env]
    rw [devicePhase_countP _ rfl (fun _ => rfl) env.devices env.addUdidAnswer]
    rw [renderEventsOf_countP _ (fun _ => rfl) (fun _ => rfl) env email]
    rfl

theorem eventsBeforeFirstSubmit_all (t : List Event)
    (h : ∀ e ∈ t, e.isSubmit = false) : eventsBeforeFirstSubmit t = t := by
  unfold eventsBeforeFirstSubmit
  induction t with
  | nil => rfl
  | cons a as ih =>
    have ha := h a (List.mem_cons_self a as)
    simp only [List.takeWhile_cons, ha]
    simp [ih (fun e he => h e (List.mem_cons_of_mem a he))]

theorem eventsBeforeFirstSubmit_append (A B : List Event)
    (h : ∀ e ∈ A, e.isSubmit = false) :
    eventsBeforeFirstSubmit (A ++ B) = A ++ eventsBeforeFirstSubmit B := by
  unfold eventsBeforeFirstSubmit
  induction A with
  | nil => rfl
  | cons a as ih =>
    have ha := h a (List.mem_cons_self a as)
    simp only [List.cons_append, List.takeWhile_cons, ha]
    simp [ih (fun e he => h e (List.mem_cons_of_mem a he))]

theorem countP_zero_to_false (p : Event → Bool) (t : List Event)
    (h : t.countP p = 0) : ∀ e ∈ t, p e = false := by
  intro e he
  have := List.countP_eq_zero.mp h e he
  simpa using this

theorem earlyTraceOf_no_submit (env : Env) :
    ∀ e ∈ earlyTraceOf env, e.isSubmit = false := by
  apply countP_zero_to_false
  rw [earlyTraceOf_countP_eq env _ (by decide) (by decide) (fun _ => rfl) (fun _ _ => rfl)]
  exact updOf_countP _ (fun _ _ _ => rfl) env

/-- C6 counterexample: in the completed run over `envC6` the build request
is submitted exactly once, yet the single disabled-services rendering
already occurs in the trace prefix that precedes the first submission — the
rendering happens before the Build Request Submitter runs, not after it
returns. -/
theorem disabled_services_rendered_before_submit_counterexample :
    (runClientIos envC6).trace.countP Event.isSubmit = 1
    ∧ (eventsBeforeFirstSubmit (runClientIos envC6).trace).countP
        Event.isRenderDisabled = 1 :=
  ⟨rfl, rfl⟩

/-- C6 amended: in every run that passes the eligibility gate the disabled
services report is rendered exactly once, and the rendering precedes any
build submission (it happens right after credential selection, before the
credential store update, the email prompt, the device listing and the
submission). -/
theorem disabled_services_rendered_once_before_submit (env : Env)
    (hA : env.isAllowed = true) :
    (runClientIos env).trace.countP Event.isRenderDisabled = 1
    ∧ (eventsBeforeFirstSubmit (runClientIos env).trace).countP
        Event.isRenderDisabled = 1 := by
  refine ⟨trace_countP_renderDisabled env hA, ?_⟩
  rw [runClientIos_allowed env hA]
  cases hE : (emailPhase env.user env.emailInputs).2 with
  | none =>
    rw [runAllowed_waiting env hE]
    show (eventsBeforeFirstSubmit (earlyTraceOf env)).countP Event.isRenderDisabled = 1
    rw [eventsBeforeFirstSubmit_all _ (earlyTraceOf_no_submit env)]
    exact earlyTraceOf_render_count env
  | some email =>
    rw [runAllowed_completed env email hE]
    show (eventsBeforeFirstSubmit (earlyTraceOf env
      ++ (devicePhase env.devices env.addUdidAnswer).1
      ++ [Event.submit (reqOf env email)] ++ renderEventsOf env email)).countP
        Event.isRenderDisabled = 1
    rw [List.append_assoc (earlyTraceOf env ++ (devicePhase env.devices env.addUdidAnswer).1)]
    rw [eventsBeforeFirstSubmit_append
      (earlyTraceOf env ++ (devicePhase env.devices env.addUdidAnswer).1)
      ([Event.submit (reqOf env email)] ++ renderEventsOf env email) ?hall]
    case hall =>
      intro e he
      rcases List.mem_append.mp he with h1 | h2
      · exact earlyTraceOf_no_submit env e h1
      · exact countP_zero_to_false _ _
          (devicePhase_countP _ rfl (fun _ => rfl) env.devices env.addUdidAnswer) e h2
    show ((earlyTraceOf env ++ (devicePhase env.devices env.addUdidAnswer).1)
      ++ eventsBeforeFirstSubmit ([Event.submit (reqOf env email)]
        ++ renderEventsOf env email)).countP Event.isRenderDisabled = 1
    rw [show eventsBeforeFirstSubmit ([Event.submit (reqOf env email)]
      ++ renderEventsOf env email) = [] from rfl]
    rw [List.countP_append, List.countP_append]
    rw [earlyTraceOf_render_count env]
    rw [devicePhase_countP _ rfl (fun _ => rfl) env.devices env.addUdidAnswer]
    rfl

theorem disabled_services_rendered_once_before_submit_witness :
    envC6.isAllowed = true ∧
    ((runClientIos envC6).trace.countP Event.isRenderDisabled = 1
      ∧ (eventsBeforeFirstSubmit (runClientIos envC6).trace).countP
          Event.isRenderDisabled = 1) :=
  ⟨rfl, disabled_services_rendered_once_before_submit envC6 rfl⟩

/-- C7: evaluation of the code at a configuration that does contain the
ios.config.googleMapsApiKey field.  The lodash check of source line 52 runs
over the path derived from the stringified arrow function, whose first key
is never a property of the configuration, so the check fails and the run
still records googleMaps as disabled — with a message asserting the very
field that is present is missing.  This contradicts the claim and the
code's own user-facing message, supporting the claim as the intent. -/
theorem googleMaps_disabled_despite_key_present :
    jsHasOpt envC7.exp googleMapsIntendedPath = true
    ∧ jsHasOpt envC7.exp googleMapsCheckPath = false
    ∧ List.lookup "googleMaps" (runClientIos envC7).servicesDisabled =
        some ("ios.config.googleMapsApiKey does not exist in configuration file found in /proj/app.json") :=
  ⟨rfl, rfl, rfl⟩

theorem completed_submittedEmails (env : Env) (email : String)
    (hA : env.isAllowed = true)
    (hE : (emailPhase env.user env.emailInputs).2 = some email) :
    submittedEmails (runClientIos env).trace = [email] := by
  unfold submittedEmails
  rw [completed_trace_filterMap env email hA hE emailProj rfl rfl (fun _ => rfl)
    (fun _ _ => rfl) (fun _ _ _ => rfl)]
  rw [devicePhase_filterMap emailProj rfl (fun _ => rfl) env.devices env.addUdidAnswer]
  rw [renderEventsOf_filterMap emailProj (fun _ => rfl) (fun _ => rfl) env email]
  rfl

theorem user_present_no_email_prompts (env : Env) (u : UserInfo)
    (hu : env.user = some u) (hA : env.isAllowed = true) :
    (runClientIos env).trace.countP Event.isPromptEmail = 0 := by
  have hE : (emailPhase env.user env.emailInputs).2 = some u.email := by
    rw [hu]
    rfl
  rw [runClientIos_allowed env hA, runAllowed_completed env u.email hE]
  show (earlyTraceOf env ++ (devicePhase env.devices env.addUdidAnswer).1
    ++ [Event.submit (reqOf env u.email)] ++ renderEventsOf env u.email).countP
      Event.isPromptEmail = 0
  rw [List.countP_append, List.countP_append, List.countP_append]
  have hearly : (earlyTraceOf env).countP Event.isPromptEmail = 0 := by
    unfold earlyTraceOf
    rw [List.countP_append, List.countP_append, List.countP_append, List.countP_append]
    have h1 : preEvents.countP Event.isPromptEmail = 0 := rfl
    have h2 : credEvents.countP Event.isPromptEmail = 0 := rfl
    have h3 := sdRenderEvents_countP Event.isPromptEmail (fun _ => rfl) (sdAfterPush env)
    have h4 := updOf_countP Event.isPromptEmail (fun _ _ _ => rfl) env
    have h5 : ((emailPhase env.user env.emailInputs).1).countP Event.isPromptEmail = 0 := by
      rw [hu]
      rfl
    rw [h1, h2, h3, h4, h5]
  rw [hearly, devicePhase_countP _ rfl (fun _ => rfl) env.devices env.addUdidAnswer,
    renderEventsOf_countP _ (fun _ => rfl) (fun _ => rfl) env u.email]
  rfl

/-- C8: the notification email is the identity email when an identity is
present (no prompting); otherwise the prompt accepts an input exactly when
it passes the test of the regular expression, a malformed input only causes
a further prompt round, and no run that passes the eligibility gate ever
ends in an error — in particular malformed email input never escalates to a
run failure. -/
theorem email_resolution (env : Env) (u : UserInfo) (s : String) (rest : List String) :
    (env.isAllowed = true → env.user = some u →
      submittedEmails (runClientIos env).trace = [u.email]
      ∧ (runClientIos env).trace.countP Event.isPromptEmail = 0)
    ∧ (emailRegexTest s = true →
        promptEmailLoop (s :: rest) = ([Event.promptEmail s true], some s.trim))
    ∧ (emailRegexTest s = false →
        promptEmailLoop (s :: rest) =
          ((Event.promptEmail s false) :: (promptEmailLoop rest).1,
            (promptEmailLoop rest).2))
    ∧ (env.isAllowed = true → ∀ k m, (runClientIos env).outcome ≠ Outcome.err k m) := by
  refine ⟨?_, ?_, ?_, ?_⟩
  · intro hA hu
    have hE : (emailPhase env.user env.emailInputs).2 = some u.email := by
      rw [hu]
      rfl
    exact ⟨completed_submittedEmails env u.email hA hE,
      user_present_no_email_prompts env u hu hA⟩
  · intro hs
    simp [promptEmailLoop, hs]
  · intro hs
    simp [promptEmailLoop, hs]
  · intro hA k m
    rw [runClientIos_allowed env hA]
    cases hE : (emailPhase env.user env.emailInputs).2 with
    | none =>
      rw [runAllowed_waiting env hE]
      intro hcontr
      exact Outcome.noConfusion hcontr
    | some email =>
      rw [runAllowed_completed env email hE]
      intro hcontr
      exact Outcome.noConfusion hcontr

theorem email_resolution_witness :
    baseEnv.isAllowed = true ∧
    submittedEmails (runClientIos baseEnv).trace = ["alice@example.com"] ∧
    (runClientIos baseEnv).trace.countP Event.isPromptEmail = 0 ∧
    emailRegexTest "carol@example.com" = true ∧
    promptEmailLoop ["carol@example.com"] =
      ([Event.promptEmail "carol@example.com" true], some ("carol@example.com".trim)) ∧
    emailRegexTest "not-an-email" = false ∧
    promptEmailLoop ["not-an-email", "carol@example.com"] =
      ((Event.promptEmail "not-an-email" false) :: (promptEmailLoop ["carol@example.com"]).1,
        (promptEmailLoop ["carol@example.com"]).2) ∧
    ∀ k m, (runClientIos baseEnv).outcome ≠ Outcome.err k m :=
  ⟨rfl,
   ((email_resolution baseEnv { username := "alice", email := "alice@example.com" }
      "x" []).1 rfl rfl).1,
   ((email_resolution baseEnv { username := "alice", email := "alice@example.com" }
      "x" []).1 rfl rfl).2,
   rfl,
   (email_resolution baseEnv { username := "alice", email := "alice@example.com" }
      "carol@example.com" []).2.1 rfl,
   rfl,
   (email_resolution baseEnv { username := "alice", email := "alice@example.com" }
      "not-an-email" ["carol@example.com"]).2.2.1 rfl,
   (email_resolution baseEnv { username := "alice", email := "alice@example.com" }
      "x" []).2.2.2 rfl⟩

/-- C9: the bundler-configuration builder returns exactly the configuration
produced by webpackConfig on the validated environment and the arguments;
the diagnostic report gated by the info flag is a pure side channel, so
toggling info leaves the returned configuration unchanged. -/
theorem webpack_builder_returns_pure_transform (Core Args Cfg Diag : Type)
    (transform : Core → Args → Cfg) (report : Cfg → WebpackEnv Core → Diag)
    (env : InputWebpackEnv Core) (argv : Args) :
    (webpackBuilder transform report env argv).1
        = webpackConfigFn transform (validateEnvironment env) argv
    ∧ (webpackBuilder transform report { info := true, core := env.core } argv).1
        = (webpackBuilder transform report { info := false, core := env.core } argv).1 := by
  constructor
  · simp only [webpackBuilder, webpackConfigFn, validateEnvironment]
    split <;> rfl
  · rfl

theorem sdInit_lookup_push (env : Env) :
    List.lookup "pushNotifications" (sdInit env) = some pushDefaultReason := by
  simp only [sdInit]
  split <;> rfl

theorem earlyTraceOf_renderedReports (env : Env) :
    renderedReports (earlyTraceOf env) = [sdAfterPush env] := by
  unfold renderedReports earlyTraceOf
  rw [List.filterMap_append, List.filterMap_append, List.filterMap_append,
    List.filterMap_append]
  have h1 : preEvents.filterMap reportProj = [] := rfl
  have h2 : credEvents.filterMap reportProj = [] := rfl
  have h3 : (sdRenderEvents (sdAfterPush env)).filterMap reportProj = [sdAfterPush env] := by
    unfold sdRenderEvents
    rw [if_pos (sdAfterPush_length_pos env)]
    rfl
  have h4 := updOf_filterMap reportProj (fun _ _ _ => rfl) env
  have h5 : ((emailPhase env.user env.emailInputs).1).filterMap reportProj = [] := by
    cases hu : env.user with
    | some u => rfl
    | none => exact promptEmailLoop_filterMap reportProj (fun _ _ => rfl) env.emailInputs
  rw [h1, h2, h3, h4, h5]
  simp

theorem run_servicesDisabled_allowed (env : Env) (hA : env.isAllowed = true) :
    (runClientIos env).servicesDisabled = sdAfterPush env := by
  rw [runClientIos_allowed env hA]
  cases hE : (emailPhase env.user env.emailInputs).2 with
  | none => rw [runAllowed_waiting env hE]
  | some email => rw [runAllowed_completed env email hE]

theorem allowed_renderedReports (env : Env) (hA : env.isAllowed = true) :
    renderedReports (runClientIos env).trace = [sdAfterPush env] := by
  rw [runClientIos_allowed env hA]
  cases hE : (emailPhase env.user env.emailInputs).2 with
  | none =>
    rw [runAllowed_waiting env hE]
    exact earlyTraceOf_renderedReports env
  | some email =>
    rw [runAllowed_completed env email hE]
    show renderedReports (earlyTraceOf env ++ (devicePhase env.devices env.addUdidAnswer).1
      ++ [Event.submit (reqOf env email)] ++ renderEventsOf env email) = _
    unfold renderedReports
    rw [List.filterMap_append, List.filterMap_append, List.filterMap_append]
    rw [show (earlyTraceOf env).filterMap reportProj = [sdAfterPush env] from
      earlyTraceOf_renderedReports env]
    rw [devicePhase_filterMap reportProj rfl (fun _ => rfl) env.devices env.addUdidAnswer]
    rw [renderEventsOf_filterMap reportProj (fun _ => rfl) (fun _ => rfl) env email]
    rfl

/-- C10 counterexample: the denied run over `envC10` carries a non-empty
disabled-services report, yet renders no disabled-services block at all —
the warning block is not rendered on every run. -/
theorem push_warning_not_rendered_on_denied_run :
    (runClientIos envC10).servicesDisabled ≠ []
    ∧ (runClientIos envC10).trace.countP Event.isRenderDisabled = 0 :=
  ⟨by decide, rfl⟩

/-- C10 amended: in every run the report carries the pushNotifications key
with the fixed default reason — the later JS-or assignment never replaces
it — and the report is never empty; the disabled-services warning block,
carrying that report, is rendered exactly once on every run that passes the
eligibility gate (denied runs abort before the rendering). -/
theorem push_reason_fixed_and_block_rendered (env : Env) :
    List.lookup "pushNotifications" (runClientIos env).servicesDisabled
        = some pushDefaultReason
    ∧ (runClientIos env).servicesDisabled ≠ []
    ∧ (env.isAllowed = true →
        renderedReports (runClientIos env).trace = [(runClientIos env).servicesDisabled]) := by
  cases hA : env.isAllowed with
  | false =>
    have hsd : (runClientIos env).servicesDisabled = sdInit env := by
      rw [runClientIos_denied env hA]
    refine ⟨?_, ?_, ?_⟩
    · rw [hsd]
      exact sdInit_lookup_push env
    · rw [hsd]
      intro hnil
      have hl := sdInit_lookup_push env
      rw [hnil] at hl
      simp [List.lookup] at hl
    · intro hcontr
      exact Bool.noConfusion hcontr
  | true =>
    have hsd := run_servicesDisabled_allowed env hA
    refine ⟨?_, ?_, ?_⟩
    · rw [hsd]
      exact sdAfterPush_lookup_push env
    · rw [hsd]
      intro hnil
      have hl := sdAfterPush_lookup_push env
      rw [hnil] at hl
      simp [List.lookup] at hl
    · intro _
      rw [hsd]
      exact allowed_renderedReports env hA

theorem push_reason_fixed_and_block_rendered_witness :
    List.lookup "pushNotifications" (runClientIos baseEnv).servicesDisabled
        = some pushDefaultReason ∧
    (runClientIos baseEnv).servicesDisabled ≠ [] ∧
    renderedReports (runClientIos baseEnv).trace = [(runClientIos baseEnv).servicesDisabled] :=
  ⟨(push_reason_fixed_and_block_rendered baseEnv).1,
   (push_reason_fixed_and_block_rendered baseEnv).2.1,
   (push_reason_fixed_and_block_rendered baseEnv).2.2 rfl⟩
